import Mathlib

/-!
Verification of the `google-ads-doctor` (oauthdoctor) repository: a shallow
embedding of its error classifier (`decodeError`), diagnostic step
(`diagnose`), recovery controller (`reconnect`), the three OAuth flow
simulators, and the multi-dialect config rewriter
(`ReplaceConfigFromReader` / `configLineStr`), together with theorems
settling the specification claims about them.

Source files embedded: `oauthdoctor/oauth/helper.go`,
`oauthdoctor/oauth/installed_app.go`, `oauthdoctor/oauth/web.go`,
`oauthdoctor/oauth/service_account.go`, `oauthdoctor/diag/config.go`.
-/

namespace Oauthdoctor

/-! ## Go string primitives

`goContains` is Go's `strings.Contains` (substring test), `goHasPrefix` is
`strings.HasPrefix`, and `trimSpace` is `strings.TrimSpace` (leading and
trailing whitespace removed); config files here are ASCII so `String.trim`
matches Go's Unicode trimming on every input we consider. -/

/-- Boolean test that `needle` occurs as a contiguous sublist of the
argument. -/
def listInfixOf (needle : List Char) : List Char → Bool
  | [] => needle.isEmpty
  | c :: rest => needle.isPrefixOf (c :: rest) || listInfixOf needle rest

def goContains (s sub : String) : Bool :=
  listInfixOf sub.toList s.toList

def goHasPrefix (s pre : String) : Bool :=
  pre.toList.isPrefixOf s.toList

/-- Go's `unicode.IsSpace` on the ASCII range (config lines here are
ASCII; Go additionally trims a handful of Unicode space code points). -/
def isSpaceGo (c : Char) : Bool :=
  c == ' ' || c == '\t' || c == '\n' || c == '\x0b' || c == '\x0c' || c == '\r'

/-- `strings.TrimSpace` on the character list: drop leading and trailing
space characters. -/
def trimList (l : List Char) : List Char :=
  ((l.dropWhile isSpaceGo).reverse.dropWhile isSpaceGo).reverse

def trimSpace (s : String) : String :=
  String.mk (trimList s.toList)

/-- `strings.ToLower` on the ASCII range (the language tags fed to it are
ASCII identifiers). -/
def toLowerChar (c : Char) : Char :=
  if 'A' ≤ c && c ≤ 'Z' then Char.ofNat (c.toNat + 32) else c

def goToLower (s : String) : String :=
  String.mk (s.toList.map toLowerChar)

/-! ## ErrorKind (`helper.go` lines 38-48)

The Go source declares these as `iota` integer constants; the closed
enumeration is embedded as an inductive with the source's constant names. -/

inductive ErrorKind where
  | accessNotPermittedForManagerAccount
  | googleAdsAPIDisabled
  | invalidClientInfo
  | invalidRefreshToken
  | invalidCustomerID
  | missingDevToken
  | unauthenticated
  | unauthorized
  | unknownError
  deriving DecidableEq, Repr

/-! ## decodeError (`helper.go` lines 97-137)

A direct transcription of the chain of `strings.Contains` tests on the
error text. -/

def decodeError (errstr : String) : ErrorKind :=
  if goContains errstr "invalid_client" then
    -- Client ID and/or secret is invalid
    ErrorKind.invalidClientInfo
  else if goContains errstr "unauthorized_client" then
    -- The given refresh token may not be generated with the given client ID
    -- and secret
    ErrorKind.unauthorized
  else if goContains errstr "invalid_grant" then
    -- Refresh token is not valid for any users
    ErrorKind.invalidRefreshToken
  else if goContains errstr "refresh token is not set" then
    ErrorKind.invalidRefreshToken
  else if goContains errstr "USER_PERMISSION_DENIED" then
    -- User doesn't have permission to access Google Ads account
    ErrorKind.invalidRefreshToken
  else if goContains errstr "\"PERMISSION_DENIED\"" then
    ErrorKind.googleAdsAPIDisabled
  else if goContains errstr "UNAUTHENTICATED" then
    ErrorKind.unauthenticated
  else if goContains errstr "CANNOT_BE_EXECUTED_BY_MANAGER_ACCOUNT" then
    -- Request cannot be executed by a manager account
    ErrorKind.accessNotPermittedForManagerAccount
  else if goContains errstr "DEVELOPER_TOKEN_PARAMETER_MISSING" then
    ErrorKind.missingDevToken
  else if goContains errstr "INVALID_CUSTOMER_ID" then
    ErrorKind.invalidCustomerID
  else
    ErrorKind.unknownError

/-! ## Specification-side classifier

Modelled from the spec's words for the refinement comparison in claim C1:
"case-sensitive substring matching against a fixed, ordered list of known
markers; first matching marker in list order wins; no match yields
Unknown". -/

def markerTable : List (String × ErrorKind) :=
  [("invalid_client", ErrorKind.invalidClientInfo),
   ("unauthorized_client", ErrorKind.unauthorized),
   ("invalid_grant", ErrorKind.invalidRefreshToken),
   ("refresh token is not set", ErrorKind.invalidRefreshToken),
   ("USER_PERMISSION_DENIED", ErrorKind.invalidRefreshToken),
   ("\"PERMISSION_DENIED\"", ErrorKind.googleAdsAPIDisabled),
   ("UNAUTHENTICATED", ErrorKind.unauthenticated),
   ("CANNOT_BE_EXECUTED_BY_MANAGER_ACCOUNT",
     ErrorKind.accessNotPermittedForManagerAccount),
   ("DEVELOPER_TOKEN_PARAMETER_MISSING", ErrorKind.missingDevToken),
   ("INVALID_CUSTOMER_ID", ErrorKind.invalidCustomerID)]

def specClassify (errstr : String) : ErrorKind :=
  match markerTable.find? (fun p => goContains errstr p.1) with
  | some p => p.2
  | none => ErrorKind.unknownError

/-! ## Multi-dialect config rewriter (`diag/config.go`)

`Languages` (lines 91-156) is the per-dialect table; `configLineStr`
(lines 291-308) formats the new key/value line; `ReplaceConfigFromReader`
(lines 195-240) is the line-oriented rewrite. The Go code scans the reader
line by line (each emitted chunk ends with `"\n"`), so the embedding works
on the list of lines: each source `buf.WriteString` of a newline-terminated
chunk becomes appending one line to the output list. -/

structure Comment where
  leftMeta : String
  rightMeta : String
  deriving DecidableEq, Repr

structure ConfigKeys where
  clientID : String
  clientSecret : String
  devToken : String
  refreshToken : String
  loginCustomerID : String
  deriving DecidableEq, Repr

structure LangConfig where
  comment : Comment
  separator : String
  filename : String
  keys : ConfigKeys
  deriving DecidableEq, Repr

/-- The `Languages` map from `config.go`; an unknown language yields Go's
zero value for the `Config` struct, as a Go map read does. -/
def languagesGet : String → LangConfig
  | "java" =>
    { comment := { leftMeta := "#", rightMeta := "" }
      separator := "="
      filename := "ads.properties"
      keys :=
        { clientID := "api.googleads.clientId"
          clientSecret := "api.googleads.clientSecret"
          devToken := "api.googleads.developerToken"
          refreshToken := "api.googleads.refreshToken"
          loginCustomerID := "api.googleads.loginCustomerId" } }
  | "dotnet" =>
    { comment := { leftMeta := "<!--", rightMeta := "-->" }
      separator := ""
      filename := "App.Config"
      keys :=
        { clientID := "OAuth2ClientId"
          clientSecret := "OAuth2ClientSecret"
          devToken := "DeveloperToken"
          refreshToken := "OAuth2RefreshToken"
          loginCustomerID := "LoginCustomerId" } }
  | "php" =>
    { comment := { leftMeta := ";", rightMeta := "" }
      separator := "="
      filename := "google_ads_php.ini"
      keys :=
        { clientID := "clientId"
          clientSecret := "clientSecret"
          devToken := "developerToken"
          refreshToken := "refreshToken"
          loginCustomerID := "loginCustomerId" } }
  | "python" =>
    { comment := { leftMeta := "#", rightMeta := "" }
      separator := ":"
      filename := "google-ads.yaml"
      keys :=
        { clientID := "client_id"
          clientSecret := "client_secret"
          devToken := "developer_token"
          refreshToken := "refresh_token"
          loginCustomerID := "login_customer_id" } }
  | "ruby" =>
    { comment := { leftMeta := "#", rightMeta := "" }
      separator := "="
      filename := "google_ads_config.rb"
      keys :=
        { clientID := "c.client_id"
          clientSecret := "c.client_secret"
          devToken := "c.developer_token"
          refreshToken := "c.refresh_token"
          loginCustomerID := "c.login_customer_id" } }
  | _ =>
    { comment := { leftMeta := "", rightMeta := "" }
      separator := ""
      filename := ""
      keys :=
        { clientID := ""
          clientSecret := ""
          devToken := ""
          refreshToken := ""
          loginCustomerID := "" } }

/-- The canonical key names (`config.go` lines 38-49); `config.go` passes
them around as the strings "ClientID" etc. and resolves struct fields by
reflection, which this closed enumeration embeds. -/
inductive CKey where
  | clientID
  | clientSecret
  | devToken
  | refreshToken
  | loginCustomerID
  deriving DecidableEq, Repr

/-- `GetConfigKeysInLang` (`config.go` lines 170-173): the dialect-specific
key token for a canonical key. -/
def getConfigKeysInLang (lang : String) (key : CKey) : String :=
  match key with
  | CKey.clientID => (languagesGet lang).keys.clientID
  | CKey.clientSecret => (languagesGet lang).keys.clientSecret
  | CKey.devToken => (languagesGet lang).keys.devToken
  | CKey.refreshToken => (languagesGet lang).keys.refreshToken
  | CKey.loginCustomerID => (languagesGet lang).keys.loginCustomerID

/-- `configLineStr` (`config.go` lines 291-308) without the trailing
`"\n"` the Go code appends (the line-list model keeps lines
unterminated). -/
def configLineStr (lang : String) (key : CKey) (value : String) : String :=
  let separator := (languagesGet lang).separator
  let field := getConfigKeysInLang lang key
  if goToLower lang == "java" then field ++ separator ++ value
  else if goToLower lang == "php" then field ++ separator ++ " \"" ++ value ++ "\""
  else if goToLower lang == "ruby" then field ++ separator ++ " \"" ++ value ++ "\""
  else if goToLower lang == "python" then field ++ separator ++ value
  else if goToLower lang == "dotnet" then
    "<add key=\"" ++ field ++ "\" value=\"" ++ value ++ "\"/>"
  else ""

/-- The body of the scan loop of `ReplaceConfigFromReader` (`config.go`
lines 203-237) for the line at index `i`: first the line itself is written
(comment-wrapped when it is not already a comment and contains the dialect
key token), then the new key/value line is inserted when the
dialect-specific anchor condition holds on this line. -/
def processLine (lang : String) (key : CKey) (value : String) (i : Nat)
    (line : String) : List String :=
  let comment := (languagesGet lang).comment
  let trimmedLine := trimSpace line
  let langKey := getConfigKeysInLang lang key
  (if !(goHasPrefix trimmedLine comment.leftMeta) &&
      goContains trimmedLine langKey then
    [comment.leftMeta ++ trimmedLine ++ comment.rightMeta]
  else
    [line]) ++
  (if lang == "dotnet" then
    if !(goHasPrefix trimmedLine comment.leftMeta) &&
        goContains trimmedLine "<GoogleAdsApi>" then
      [configLineStr lang key value]
    else []
  else if lang == "php" then
    if !(goHasPrefix trimmedLine comment.leftMeta) &&
        ((key == CKey.devToken && goContains trimmedLine "[GOOGLE_ADS]") ||
          goContains trimmedLine "[OAUTH2]") then
      [configLineStr lang key value]
    else []
  else if lang == "ruby" then
    if !(goHasPrefix trimmedLine comment.leftMeta) &&
        goContains trimmedLine "Google::Ads::GoogleAds::Config.new" then
      [configLineStr lang key value]
    else []
  else
    if i == 0 then [configLineStr lang key value] else [])

def replaceConfigAux (lang : String) (key : CKey) (value : String) :
    Nat → List String → List String
  | _, [] => []
  | i, l :: ls =>
    processLine lang key value i l ++ replaceConfigAux lang key value (i + 1) ls

/-- `ReplaceConfigFromReader` (`config.go` lines 195-240) on the list of
scanned lines. -/
def replaceConfigFromReader (lang : String) (key : CKey) (value : String)
    (ls : List String) : List String :=
  replaceConfigAux lang key value 0 ls

/-- The string the Go function actually returns: every emitted line
newline-terminated, concatenated in order. -/
def replaceConfigString (lang : String) (key : CKey) (value : String)
    (ls : List String) : String :=
  String.join ((replaceConfigFromReader lang key value ls).map (· ++ "\n"))

/-- The comment-wrapped form of an (already trimmed) line, as written by
line 210 of `config.go`. -/
def commentWrap (lang : String) (t : String) : String :=
  (languagesGet lang).comment.leftMeta ++ t ++ (languagesGet lang).comment.rightMeta

/-- The comment-out condition of line 209 of `config.go`: the line is not
already a comment and contains the dialect key token. -/
def lineCond (lang : String) (key : CKey) (line : String) : Bool :=
  !(goHasPrefix (trimSpace line) (languagesGet lang).comment.leftMeta) &&
    goContains (trimSpace line) (getConfigKeysInLang lang key)

/-- What the scan loop writes for one line when no insertion anchor fires:
the line kept verbatim, or its trimmed content comment-wrapped. -/
def keepOrComment (lang : String) (key : CKey) (line : String) : String :=
  if lineCond lang key line then
    commentWrap lang (trimSpace line)
  else
    line

/-! ## ConfigWriter and `replaceRefreshToken` (`helper.go` lines 225-237)

`ReplaceConfig` (`config.go` lines 244-287) updates the in-memory
`ConfigKeys` field and rewrites the on-disk file; the embedding records
both: the mutated keys and the sequence of performed file writes. -/

structure WriterState where
  keys : ConfigKeys
  writes : List (CKey × String)
  deriving DecidableEq, Repr

/-- `SetConfigKeys` (`config.go` lines 176-178). -/
def setConfigKeys (keys : ConfigKeys) (key : CKey) (value : String) :
    ConfigKeys :=
  match key with
  | CKey.clientID => { keys with clientID := value }
  | CKey.clientSecret => { keys with clientSecret := value }
  | CKey.devToken => { keys with devToken := value }
  | CKey.refreshToken => { keys with refreshToken := value }
  | CKey.loginCustomerID => { keys with loginCustomerID := value }

/-- `ReplaceConfig`: in-memory update plus one on-disk rewrite. -/
def replaceConfig (st : WriterState) (key : CKey) (value : String) :
    WriterState :=
  { keys := setConfigKeys st.keys key value
    writes := st.writes ++ [(key, value)] }

/-- `replaceRefreshToken`: the config write happens exactly when the
operator's (already `readStdin`-sanitized) answer equals `"Y"`. -/
def replaceRefreshToken (st : WriterState) (answer refreshToken : String) :
    WriterState :=
  if answer == "Y" then replaceConfig st CKey.refreshToken refreshToken
  else st

/-! ## `diagnose`'s JSON message extraction (`helper.go` lines 141-147)

`diagnose` first runs `json.Unmarshal(err.Error(), &parsedMsg)` and, when
that succeeds, evaluates
`parsedMsg["error"].(map[string]interface{})["message"]` and asserts the
result to `string`. Go's un-checked type assertion panics when the value
is absent (`nil`) or of another dynamic type. The embedding carries the
parse outcome explicitly: `none` for a `json.Unmarshal` error, and
`some fields` for a decoded top-level JSON object (for the JSON text
`null`, Go leaves the map `nil` and lookups return `nil`, which behaves
as `some []`). -/

inductive JSONValue where
  /-- a JSON string -/
  | str (s : String)
  /-- a JSON object -/
  | obj (fields : List (String × JSONValue))
  /-- any other JSON value (number, boolean, array, null); these all fail
  the two type assertions below the same way -/
  | other

inductive GoPanic where
  /-- an interface type assertion `x.(T)` failed at runtime -/
  | typeAssertionFailed
  deriving DecidableEq, Repr

/-- `parsedMsg["error"].(map[string]interface{})["message"]` followed by
`errMsg.(string)`. -/
def extractJSONErrorMessage (parsedMsg : List (String × JSONValue)) :
    Except GoPanic String :=
  match parsedMsg.lookup "error" with
  | some (JSONValue.obj errObj) =>
    match errObj.lookup "message" with
    | some (JSONValue.str m) => Except.ok m
    | some _ => Except.error GoPanic.typeAssertionFailed
    | none => Except.error GoPanic.typeAssertionFailed
  | some _ => Except.error GoPanic.typeAssertionFailed
  | none => Except.error GoPanic.typeAssertionFailed

/-- `diagnose` (`helper.go` lines 141-180) up to its observable outcome:
the optionally surfaced JSON error message, then the classification that
keys the remediation guidance. A `GoPanic` aborts before any guidance
runs. -/
def diagnose (errText : String)
    (parsed : Option (List (String × JSONValue))) :
    Except GoPanic (Option String × ErrorKind) :=
  match parsed with
  | some fields =>
    match extractJSONErrorMessage fields with
    | Except.ok m => Except.ok (some m, decodeError errText)
    | Except.error p => Except.error p
  | none => Except.ok (none, decodeError errText)

/-! ## OAuth flow simulators (`installed_app.go`, `web.go`,
`service_account.go`, `helper.go`)

The flows are straight-line imperative code over effectful collaborators
(token endpoint, Google Ads API, stdin, a local HTTP listener). They are
embedded as functions of a `World` that fixes each collaborator's
successive responses, returning the ordered trace of observable events
together with the way the run ended. Two of the callees can abort the
whole process midway, and the embedding carries both: the `diagnose` call
can panic in its JSON message extraction (see `diagnose` above), and
`oauth2Client` (`helper.go` lines 256-264) calls `log.Fatal` when the
authorization-code exchange fails — reached from `connectWithNoRefreshToken`
(installed-app recovery) and from every `connectWebFlow` attempt. A flow's
result is the events that happened before the run ended, paired with
`none` for a normal completion or `some` abort. Connection errors that
the flows handle are carried as their error text (the flows consume
errors only through `err.Error()`), and each error text is paired in the
`World` with its `json.Unmarshal` outcome, consumed by `diagnose`. -/

/-- How a run can end before reaching its report: a Go runtime panic, or
`log.Fatal` (immediate process exit). -/
inductive RunAbort where
  | panicked (p : GoPanic)
  | fataled
  deriving DecidableEq, Repr

/-- Observable events of one flow invocation. -/
inductive Event where
  /-- a call of `connectWithRefreshToken` (one connection attempt with the
  stored refresh token) -/
  | connectRT
  /-- a call of `connectWithNoRefreshToken` (full interactive consent
  re-run, minting a fresh refresh token) -/
  | connectNoRT
  /-- a call of `connectWebFlow` (one web-flow connection attempt) -/
  | connectWeb
  /-- the single `getAccount` call of the service-account flow -/
  | getAccount
  /-- `runServer()`: the local HTTP listener is started -/
  | listenerStart
  /-- `code := <-authCode`: the foreground blocks until this receive -/
  | chanRecv (code : String)
  /-- a completed call of `diagnose`, recorded with the classified kind -/
  | diagnoseEv (kind : ErrorKind)
  /-- a call of `reconnect` (the recovery step) -/
  | reconnectEv
  /-- `ReadCustomerID()`: a new customer ID is read from the operator -/
  | readCID
  /-- the `replaceRefreshToken` prompt is shown -/
  | promptReplaceRT
  /-- `ReplaceConfig(key, value)` is executed against the config file -/
  | writeConfig (key : CKey) (value : String)
  /-- the account payload is echoed (verbose mode) -/
  | logAccountInfo (info : String)
  | reportPass
  | reportFail
  deriving DecidableEq, Repr

/-- Outcome of one `connectWithNoRefreshToken` call, as determined by the
environment: the code exchange can fail (`log.Fatal` in `oauth2Client`),
otherwise a refresh token is minted and `getAccount` runs. -/
inductive NoRTResult where
  /-- `conf.Exchange` failed: `oauth2Client` calls `log.Fatal` -/
  | fatalExchange
  /-- the exchange succeeded, minting `refreshToken`; `getAccount`
  then produced `account` -/
  | done (refreshToken : String) (account : Except String String)

/-- What one `connectWebFlow` attempt observes from the environment: the
auth code the listener hands over the channel, then the exchange/fetch
outcome. -/
inductive WebResult where
  /-- `conf.Exchange` failed: `oauth2Client` calls `log.Fatal` -/
  | fatalExchange
  /-- the exchange succeeded and `getAccount` failed with this error text -/
  | apiError (err : String)
  /-- the exchange succeeded and `getAccount` returned this payload -/
  | ok (info : String)

structure WebAttempt where
  code : String
  result : WebResult

/-- The collaborators' behavior for one run. -/
structure World where
  /-- outcome of the n-th `connectWithRefreshToken` call: account info or
  error text (this path builds the client directly and cannot
  `log.Fatal`; token errors surface in `getAccount`) -/
  rt : Nat → Except String String
  /-- outcome of the n-th `connectWithNoRefreshToken` call -/
  noRT : Nat → NoRTResult
  /-- the n-th `connectWebFlow` attempt -/
  web : Nat → WebAttempt
  /-- outcome of the service-account flow's single `getAccount` call -/
  svc : Except String String
  /-- `json.Unmarshal` of an error text into `map[string]interface{}`:
  `none` on a parse error, `some fields` for a decoded object -/
  jsonParse : String → Option (List (String × JSONValue))
  /-- the operator's answer to the `replaceRefreshToken` prompt -/
  replaceAnswer : String
  verbose : Bool
  /-- `ConfigFile.RefreshToken` as loaded from the config file -/
  refreshTokenCfg : String

/-- A run whose collaborators all succeed, with a refresh token pre-seeded
in the configuration file; its error texts are not JSON. -/
def passingWorld : World :=
  { rt := fun _ => Except.ok "acct"
    noRT := fun _ => NoRTResult.done "newtok" (Except.ok "acct")
    web := fun _ => { code := "authcode", result := WebResult.ok "acct" }
    svc := Except.ok "acct"
    jsonParse := fun _ => none
    replaceAnswer := "Y"
    verbose := false
    refreshTokenCfg := "1/seeded-refresh-token" }

/-- A run whose connection attempts all fail with non-JSON error texts. -/
def failingWorld : World :=
  { rt := fun _ => Except.error "invalid_grant"
    noRT := fun _ => NoRTResult.done "newtok" (Except.error "invalid_grant")
    web := fun _ => { code := "authcode",
                      result := WebResult.apiError "\"PERMISSION_DENIED\"" }
    svc := Except.error "UNAUTHENTICATED"
    jsonParse := fun _ => none
    replaceAnswer := "N"
    verbose := true
    refreshTokenCfg := "" }

/-- A run whose connection attempts fail with the error text `{}`, which
`json.Unmarshal` decodes as an object with no fields — the input on which
`diagnose` panics. -/
def panicWorld : World :=
  { rt := fun _ => Except.error "\x7b\x7d"
    noRT := fun _ => NoRTResult.done "newtok" (Except.error "\x7b\x7d")
    web := fun _ => { code := "authcode",
                      result := WebResult.apiError "\x7b\x7d" }
    svc := Except.error "\x7b\x7d"
    jsonParse := fun s => if s = "\x7b\x7d" then some [] else none
    replaceAnswer := "N"
    verbose := false
    refreshTokenCfg := "" }

/-- `connectWithNoRefreshToken` (`installed_app.go` lines 134-139):
`genAuthCode`, then `oauth2Client` (which exchanges the code, aborting in
`log.Fatal` on failure — `none` here), then `getAccount`. On a completed
call it returns the account outcome and the minted refresh token. -/
def connectWithNoRefreshToken (a : NoRTResult) :
    Option (Except String String × String) :=
  match a with
  | NoRTResult.fatalExchange => none
  | NoRTResult.done tok acct => some (acct, tok)

/-- `reconnect` (`installed_app.go` lines 71-96): the recovery decision
table. `rtRetry` is the outcome the environment returns for the retry
with existing credentials, `noRTRetry` for the consent re-run. Returns
the completed call's (account outcome, new refresh token) — `none` when
the regenerating branch aborted in `log.Fatal` — and the recovery's
events. -/
def reconnect (rtRetry : Except String String) (noRTRetry : NoRTResult)
    (err : String) :
    Option (Except String String × String) × List Event :=
  match decodeError err with
  | ErrorKind.googleAdsAPIDisabled =>
    (some (rtRetry, ""), [Event.connectRT])
  | ErrorKind.invalidCustomerID =>
    (some (rtRetry, ""), [Event.readCID, Event.connectRT])
  | ErrorKind.invalidClientInfo =>
    (some (rtRetry, ""), [Event.connectRT])
  | ErrorKind.accessNotPermittedForManagerAccount =>
    (connectWithNoRefreshToken noRTRetry, [Event.connectNoRT])
  | ErrorKind.invalidRefreshToken =>
    (connectWithNoRefreshToken noRTRetry, [Event.connectNoRT])
  | ErrorKind.missingDevToken =>
    (some (rtRetry, ""), [Event.connectRT])
  | _ =>
    (connectWithNoRefreshToken noRTRetry, [Event.connectNoRT])

/-- `replaceRefreshToken` (`helper.go` lines 225-237) at the flow level:
the prompt, then the config write exactly when the answer is `Y`. -/
def replaceRefreshTokenEvents (answer refreshToken : String) : List Event :=
  Event.promptReplaceRT ::
    (if answer == "Y" then [Event.writeConfig CKey.refreshToken refreshToken]
     else [])

/-- `simulateAppFlow` (`installed_app.go` lines 40-67). On a first-attempt
failure the flow calls `diagnose` — whose panic ends the run with no
recovery and no report — then `reconnect`, whose regenerating branches can
end the run in `log.Fatal`; otherwise the second outcome is reported. -/
def simulateAppFlow (w : World) : List Event × Option RunAbort :=
  match w.rt 0 with
  | Except.ok info =>
    (Event.connectRT ::
      ((if w.verbose then [Event.logAccountInfo info] else []) ++
        [Event.reportPass]), none)
  | Except.error e =>
    match diagnose e (w.jsonParse e) with
    | Except.error p => ([Event.connectRT], some (RunAbort.panicked p))
    | Except.ok _ =>
      let r := reconnect (w.rt 1) (w.noRT 0) e
      let pre := Event.connectRT :: Event.diagnoseEv (decodeError e) ::
        Event.reconnectEv :: r.2
      match r.1 with
      | none => (pre, some RunAbort.fataled)
      | some (res, tok) =>
        match res with
        | Except.ok info =>
          (pre ++ (if w.verbose then [Event.logAccountInfo info] else []) ++
            Event.reportPass ::
              (if tok != "" then
                replaceRefreshTokenEvents w.replaceAnswer tok
              else []), none)
        | Except.error _ => (pre ++ [Event.reportFail], none)

/-- `connectWebFlow` (`web.go` lines 70-90): unconditionally starts the
listener, blocks on the auth-code channel, then exchanges the code
(aborting in `log.Fatal` on exchange failure) and fetches the account.
Returns the attempt's events and its outcome. -/
def connectWebFlow (a : WebAttempt) :
    List Event × Except RunAbort (Except String String) :=
  ([Event.connectWeb, Event.listenerStart, Event.chanRecv a.code],
   match a.result with
   | WebResult.fatalExchange => Except.error RunAbort.fataled
   | WebResult.apiError e => Except.ok (Except.error e)
   | WebResult.ok info => Except.ok (Except.ok info))

/-- `simulateWebFlow` (`web.go` lines 35-62). A first-attempt `getAccount`
failure is diagnosed (possibly panicking) and the attempt repeated once;
either attempt's exchange failure ends the run in `log.Fatal`. -/
def simulateWebFlow (w : World) : List Event × Option RunAbort :=
  let c1 := connectWebFlow (w.web 0)
  match c1.2 with
  | Except.error a => (c1.1, some a)
  | Except.ok (Except.ok info) =>
    (c1.1 ++ (if w.verbose then [Event.logAccountInfo info] else []) ++
      [Event.reportPass], none)
  | Except.ok (Except.error e) =>
    match diagnose e (w.jsonParse e) with
    | Except.error p => (c1.1, some (RunAbort.panicked p))
    | Except.ok _ =>
      let c2 := connectWebFlow (w.web 1)
      let pre := c1.1 ++ Event.diagnoseEv (decodeError e) :: c2.1
      match c2.2 with
      | Except.error a => (pre, some a)
      | Except.ok (Except.ok info) =>
        (pre ++ (if w.verbose then [Event.logAccountInfo info] else []) ++
          [Event.reportPass], none)
      | Except.ok (Except.error _) => (pre ++ [Event.reportFail], none)

/-- `simulateServiceAccFlow` (`service_account.go` lines 13-36): a single
`getAccount` attempt and no recovery of any sort; a failure is diagnosed
(possibly panicking) and then reported. -/
def simulateServiceAccFlow (w : World) : List Event × Option RunAbort :=
  match w.svc with
  | Except.ok info =>
    (Event.getAccount ::
      ((if w.verbose then [Event.logAccountInfo info] else []) ++
        [Event.reportPass]), none)
  | Except.error e =>
    match diagnose e (w.jsonParse e) with
    | Except.error p => ([Event.getAccount], some (RunAbort.panicked p))
    | Except.ok _ =>
      ([Event.getAccount, Event.diagnoseEv (decodeError e),
        Event.reportFail], none)

/-- True exactly on `diagnoseEv` events. -/
def isDiagnoseEv : Event → Bool
  | Event.diagnoseEv _ => true
  | _ => false

/-- True on connection-attempt events of the installed-app flow. -/
def isConnectAttempt : Event → Bool
  | Event.connectRT => true
  | Event.connectNoRT => true
  | _ => false


end Oauthdoctor

namespace Oauthdoctor

/-- C1: the error classifier `decodeError` is a pure function of the error
text agreeing, on every input, with the first-match-wins classifier over the
fixed, ordered marker list (earliest-listed marker present determines the
kind, no marker present yields Unknown); in particular a text containing
quoted `"PERMISSION_DENIED"` yields APIDisabled and a text containing
`INVALID_CUSTOMER_ID` and no earlier marker yields InvalidCustomerID. -/
theorem decodeError_eq_specClassify :
    (∀ s, decodeError s = specClassify s) ∧
    decodeError "...\"PERMISSION_DENIED\"..." = ErrorKind.googleAdsAPIDisabled ∧
    decodeError "...INVALID_CUSTOMER_ID..." = ErrorKind.invalidCustomerID ∧
    decodeError "no marker here" = ErrorKind.unknownError := by
  refine ⟨fun s => ?_, by decide, by decide, by decide⟩
  unfold decodeError specClassify markerTable
  simp only [List.find?]
  cases goContains s "invalid_client" <;>
    cases goContains s "unauthorized_client" <;>
    cases goContains s "invalid_grant" <;>
    cases goContains s "refresh token is not set" <;>
    cases goContains s "USER_PERMISSION_DENIED" <;>
    cases goContains s "\"PERMISSION_DENIED\"" <;>
    cases goContains s "UNAUTHENTICATED" <;>
    cases goContains s "CANNOT_BE_EXECUTED_BY_MANAGER_ACCOUNT" <;>
    cases goContains s "DEVELOPER_TOKEN_PARAMETER_MISSING" <;>
    cases goContains s "INVALID_CUSTOMER_ID" <;>
    rfl

end Oauthdoctor
namespace Oauthdoctor

theorem dropWhile_eq_self_of_head {p : Char → Bool} {c : Char} (t : List Char)
    (hc : p c = false) : List.dropWhile p (c :: t) = c :: t := by
  simp [List.dropWhile_cons, hc]

theorem dropWhile_eq_self_parts {p : Char → Bool} {l : List Char}
    (h : ((l.dropWhile p).reverse.dropWhile p).reverse = l) :
    l.dropWhile p = l ∧ l.reverse.dropWhile p = l.reverse := by
  have h1 : l.dropWhile p <:+ l := List.dropWhile_suffix p
  have h2 : (l.dropWhile p).reverse.dropWhile p <:+ (l.dropWhile p).reverse :=
    List.dropWhile_suffix p
  have hlen : l.length = ((l.dropWhile p).reverse.dropWhile p).reverse.length := by
    rw [h]
  have hle1 : (l.dropWhile p).length ≤ l.length := h1.sublist.length_le
  have hle2 : ((l.dropWhile p).reverse.dropWhile p).length ≤ (l.dropWhile p).length := by
    simpa using h2.sublist.length_le
  have hlen1 : (l.dropWhile p).length = l.length := by
    simp only [List.length_reverse] at hlen
    omega
  have hd : l.dropWhile p = l := h1.eq_of_length hlen1
  refine ⟨hd, ?_⟩
  rw [hd] at h
  have := congrArg List.reverse h
  simpa using this

theorem trimList_eq_self_parts {l : List Char} (h : trimList l = l) :
    l.dropWhile isSpaceGo = l ∧ l.reverse.dropWhile isSpaceGo = l.reverse :=
  dropWhile_eq_self_parts h

theorem trimList_cons {c : Char} {l : List Char} (hc : isSpaceGo c = false)
    (h : trimList l = l) : trimList (c :: l) = c :: l := by
  obtain ⟨-, hR⟩ := trimList_eq_self_parts h
  unfold trimList
  rw [dropWhile_eq_self_of_head _ hc]
  rw [List.reverse_cons]
  rcases hrev : l.reverse with _ | ⟨d, t⟩
  · have hln : l = [] := List.reverse_eq_nil_iff.mp hrev
    subst hln
    simp only [List.reverse_nil, List.nil_append]
    rw [dropWhile_eq_self_of_head _ hc]
    simp
  · have hl : l = t.reverse ++ [d] := by
      rw [← List.reverse_reverse l, hrev]
      simp
    rw [hrev] at hR
    have hd : isSpaceGo d = false := by
      by_contra hdt
      rw [Bool.not_eq_false] at hdt
      rw [List.dropWhile_cons, hdt] at hR
      simp only [if_true] at hR
      have hlln := congrArg List.length hR
      have hlen : (List.dropWhile isSpaceGo t).length ≤ t.length :=
        (List.dropWhile_suffix isSpaceGo).sublist.length_le
      simp at hlln
      omega
    have harg : (d :: t) ++ [c] = d :: (t ++ [c]) := rfl
    rw [harg, dropWhile_eq_self_of_head _ hd, hl]
    simp

end Oauthdoctor
namespace Oauthdoctor

theorem string_toList_append (a b : String) :
    (a ++ b).toList = a.toList ++ b.toList :=
  String.data_append a b

theorem string_eq_of_toList {a b : String} (h : a.toList = b.toList) : a = b := by
  cases a
  cases b
  exact congrArg String.mk h

theorem trimSpace_hash {s : String} (h : trimSpace s = s) :
    trimSpace ("#" ++ s) = "#" ++ s := by
  have hdata : trimList s.toList = s.toList := by
    have := congrArg String.toList h
    simpa [trimSpace] using this
  apply string_eq_of_toList
  have harg : ("#" ++ s).toList = '#' :: s.toList := by
    simp [string_toList_append]
  simp only [trimSpace, harg]
  exact trimList_cons (by decide) hdata

theorem goHasPrefix_hash (s : String) : goHasPrefix ("#" ++ s) "#" = true := by
  simp only [goHasPrefix]
  have harg : ("#" ++ s).toList = '#' :: s.toList := by
    simp [string_toList_append]
  rw [harg]
  simp [List.isPrefixOf]

theorem hash_append_inj {a b : String} (h : ("#" ++ a) = ("#" ++ b)) : a = b := by
  apply string_eq_of_toList
  have := congrArg String.toList h
  rw [string_toList_append, string_toList_append] at this
  simpa using this

theorem hash_append_ne {a b : String} (h : goHasPrefix a "#" = false) :
    "#" ++ b ≠ a := by
  intro he
  rw [← he, goHasPrefix_hash] at h
  exact Bool.true_eq_false.mp h

end Oauthdoctor
namespace Oauthdoctor

theorem if_singleton_append {α : Type} (c : Prop) [Decidable c] (x y z : α)
    (zs : List α) :
    (if c then [x] else [y]) ++ z :: zs = (if c then x else y) :: z :: zs := by
  split <;> rfl

theorem keepOrComment_eq (lang : String) (k : CKey) (l : String) :
    keepOrComment lang k l =
      if lineCond lang k l then commentWrap lang (trimSpace l) else l :=
  rfl

theorem commentWrap_default {lang : String}
    (hl : lang = "java" ∨ lang = "python") (t : String) :
    commentWrap lang t = "#" ++ t := by
  rcases hl with rfl | rfl <;>
    (apply string_eq_of_toList;
     simp [commentWrap, languagesGet, string_toList_append])

theorem processLine_default_zero {lang : String}
    (hl : lang = "java" ∨ lang = "python") (k : CKey) (v l : String) :
    processLine lang k v 0 l = [keepOrComment lang k l, configLineStr lang k v] := by
  rcases hl with rfl | rfl <;>
    simp only [processLine, keepOrComment, lineCond, commentWrap] <;>
    split <;> rfl

theorem processLine_default_succ {lang : String}
    (hl : lang = "java" ∨ lang = "python") (k : CKey) (v l : String) (i : Nat) :
    processLine lang k v (i + 1) l = [keepOrComment lang k l] := by
  rcases hl with rfl | rfl <;>
    simp only [processLine, keepOrComment, lineCond, commentWrap] <;>
    split <;> simp

theorem replaceConfigAux_default_succ {lang : String}
    (hl : lang = "java" ∨ lang = "python") (k : CKey) (v : String)
    (ls : List String) (i : Nat) :
    replaceConfigAux lang k v (i + 1) ls = ls.map (keepOrComment lang k) := by
  induction ls generalizing i with
  | nil => rfl
  | cons a as ih =>
    rw [List.map_cons, replaceConfigAux, processLine_default_succ hl, ih]
    rfl

theorem replaceConfig_default_cons {lang : String}
    (hl : lang = "java" ∨ lang = "python") (k : CKey) (v a : String)
    (ls : List String) :
    replaceConfigFromReader lang k v (a :: ls) =
      keepOrComment lang k a :: configLineStr lang k v ::
        ls.map (keepOrComment lang k) := by
  rw [replaceConfigFromReader, replaceConfigAux, processLine_default_zero hl,
    replaceConfigAux_default_succ hl]
  rfl

end Oauthdoctor
namespace Oauthdoctor

theorem leftMeta_default {lang : String}
    (hl : lang = "java" ∨ lang = "python") :
    (languagesGet lang).comment.leftMeta = "#" := by
  rcases hl with rfl | rfl <;> rfl

theorem lineCond_configLine {lang : String} {k : CKey} {v : String}
    (hl : lang = "java" ∨ lang = "python")
    (hnc : goHasPrefix (configLineStr lang k v) "#" = false)
    (hck : goContains (configLineStr lang k v)
      (getConfigKeysInLang lang k) = true)
    (hv : trimSpace (configLineStr lang k v) = configLineStr lang k v) :
    lineCond lang k (configLineStr lang k v) = true := by
  rw [lineCond, leftMeta_default hl, hv, hnc, hck]
  rfl

theorem keep_ne_configLine {lang : String} {k : CKey} {v : String}
    (hl : lang = "java" ∨ lang = "python")
    (hnc : goHasPrefix (configLineStr lang k v) "#" = false)
    (hck : goContains (configLineStr lang k v)
      (getConfigKeysInLang lang k) = true)
    (hv : trimSpace (configLineStr lang k v) = configLineStr lang k v)
    (l : String) :
    keepOrComment lang k l ≠ configLineStr lang k v := by
  rw [keepOrComment_eq]
  cases hc : lineCond lang k l with
  | false =>
    simp only [Bool.false_eq_true, if_false]
    intro he
    rw [he, lineCond_configLine hl hnc hck hv] at hc
    exact Bool.true_eq_false.mp hc
  | true =>
    simp only [if_true]
    rw [commentWrap_default hl]
    exact hash_append_ne hnc

theorem keep_eq_commented_iff {lang : String} {k : CKey} {v : String}
    (hl : lang = "java" ∨ lang = "python")
    (hnc : goHasPrefix (configLineStr lang k v) "#" = false)
    (hck : goContains (configLineStr lang k v)
      (getConfigKeysInLang lang k) = true)
    (hv : trimSpace (configLineStr lang k v) = configLineStr lang k v)
    {l : String} (hclean : trimSpace l = l) :
    keepOrComment lang k l = "#" ++ configLineStr lang k v ↔
      (l = configLineStr lang k v ∨ l = "#" ++ configLineStr lang k v) := by
  rw [keepOrComment_eq]
  cases hc : lineCond lang k l with
  | false =>
    simp only [Bool.false_eq_true, if_false]
    constructor
    · exact fun h => Or.inr h
    · rintro (rfl | rfl)
      · rw [lineCond_configLine hl hnc hck hv] at hc
        exact absurd hc (by simp)
      · rfl
  | true =>
    simp only [if_true]
    rw [commentWrap_default hl]
    constructor
    · intro h
      have h2 := hash_append_inj h
      exact Or.inl (by rw [← hclean, h2])
    · rintro (rfl | rfl)
      · rw [hv]
      · exfalso
        have hcw : trimSpace ("#" ++ configLineStr lang k v) =
            "#" ++ configLineStr lang k v := trimSpace_hash hv
        rw [lineCond, leftMeta_default hl, hcw,
          goHasPrefix_hash (configLineStr lang k v)] at hc
        simp at hc

theorem keep_clean {lang : String} {k : CKey}
    (hl : lang = "java" ∨ lang = "python")
    {l : String} (hclean : trimSpace l = l) :
    trimSpace (keepOrComment lang k l) = keepOrComment lang k l := by
  rw [keepOrComment_eq]
  cases hc : lineCond lang k l with
  | false =>
    simp only [Bool.false_eq_true, if_false]
    exact hclean
  | true =>
    simp only [if_true]
    rw [commentWrap_default hl, hclean]
    exact trimSpace_hash hclean

theorem count_configLine_map {lang : String} {k : CKey} {v : String}
    (hl : lang = "java" ∨ lang = "python")
    (hnc : goHasPrefix (configLineStr lang k v) "#" = false)
    (hck : goContains (configLineStr lang k v)
      (getConfigKeysInLang lang k) = true)
    (hv : trimSpace (configLineStr lang k v) = configLineStr lang k v)
    (L : List String) :
    List.count (configLineStr lang k v) (L.map (keepOrComment lang k)) = 0 := by
  rw [List.count_eq_zero]
  intro hmem
  rw [List.mem_map] at hmem
  obtain ⟨l, -, he⟩ := hmem
  exact keep_ne_configLine hl hnc hck hv l he

theorem count_commented_map {lang : String} {k : CKey} {v : String}
    (hl : lang = "java" ∨ lang = "python")
    (hnc : goHasPrefix (configLineStr lang k v) "#" = false)
    (hck : goContains (configLineStr lang k v)
      (getConfigKeysInLang lang k) = true)
    (hv : trimSpace (configLineStr lang k v) = configLineStr lang k v)
    (L : List String) (hcl : ∀ l ∈ L, trimSpace l = l) :
    List.count ("#" ++ configLineStr lang k v) (L.map (keepOrComment lang k)) =
      List.count (configLineStr lang k v) L +
        List.count ("#" ++ configLineStr lang k v) L := by
  induction L with
  | nil => rfl
  | cons x xs ih =>
    have hxs : ∀ l ∈ xs, trimSpace l = l :=
      fun l hm => hcl l (List.mem_cons_of_mem x hm)
    have hx : trimSpace x = x := hcl x (List.mem_cons_self x xs)
    have hiff := keep_eq_commented_iff hl hnc hck hv hx
    have hne : ("#" ++ configLineStr lang k v) ≠ configLineStr lang k v :=
      hash_append_ne hnc
    rw [List.map_cons, List.count_cons, List.count_cons, List.count_cons,
      ih hxs]
    by_cases h1 : x = configLineStr lang k v
    · subst h1
      have hk : keepOrComment lang k (configLineStr lang k v) =
          "#" ++ configLineStr lang k v := hiff.mpr (Or.inl rfl)
      rw [hk]
      simp only [beq_iff_eq, if_pos rfl, if_neg (Ne.symm hne)]
      omega
    · by_cases h2 : x = "#" ++ configLineStr lang k v
      · subst h2
        have hk : keepOrComment lang k ("#" ++ configLineStr lang k v) =
            "#" ++ configLineStr lang k v := hiff.mpr (Or.inr rfl)
        rw [hk]
        simp only [beq_iff_eq, if_pos rfl, if_neg hne]
        omega
      · have hk : keepOrComment lang k x ≠ "#" ++ configLineStr lang k v := by
          intro he
          rcases hiff.mp he with h | h
          · exact h1 h
          · exact h2 h
        simp only [beq_iff_eq, if_neg hk, if_neg h1, if_neg h2]
        omega

end Oauthdoctor
namespace Oauthdoctor

theorem isPrefixOf_append_self (l r : List Char) :
    (l.isPrefixOf (l ++ r)) = true := by
  induction l with
  | nil => simp [List.isPrefixOf]
  | cons c t ih => simp [List.isPrefixOf, ih]

theorem listInfixOf_append_self (n rest : List Char) :
    listInfixOf n (n ++ rest) = true := by
  cases n with
  | nil => cases rest <;> simp [listInfixOf, List.isPrefixOf]
  | cons c t =>
    have h : (c :: t) ++ rest = c :: (t ++ rest) := rfl
    rw [h, listInfixOf]
    have hp : ((c :: t).isPrefixOf (c :: (t ++ rest))) = true :=
      isPrefixOf_append_self (c :: t) rest
    rw [hp]
    rfl

theorem configLineStr_default_eq {lang : String}
    (hl : lang = "java" ∨ lang = "python") (k : CKey) (v : String) :
    configLineStr lang k v =
      getConfigKeysInLang lang k ++ (languagesGet lang).separator ++ v := by
  rcases hl with rfl | rfl <;> rfl

theorem configLine_contains_key {lang : String}
    (hl : lang = "java" ∨ lang = "python") (k : CKey) (v : String) :
    goContains (configLineStr lang k v) (getConfigKeysInLang lang k) = true := by
  rw [configLineStr_default_eq hl, goContains]
  have h : (getConfigKeysInLang lang k ++ (languagesGet lang).separator ++ v).toList =
      (getConfigKeysInLang lang k).toList ++
        ((languagesGet lang).separator.toList ++ v.toList) := by
    rw [string_toList_append, string_toList_append, List.append_assoc]
  rw [h]
  exact listInfixOf_append_self _ _

theorem configLine_not_comment {lang : String}
    (hl : lang = "java" ∨ lang = "python") (k : CKey) (v : String) :
    goHasPrefix (configLineStr lang k v) "#" = false := by
  rcases hl with rfl | rfl <;> cases k <;> rfl

theorem head_nonspace_of_dropWhile_self {c : Char} {t : List Char}
    (h : List.dropWhile isSpaceGo (c :: t) = c :: t) : isSpaceGo c = false := by
  by_contra hc
  rw [Bool.not_eq_false] at hc
  rw [List.dropWhile_cons, hc] at h
  simp only [if_true] at h
  have hlen := congrArg List.length h
  have hle : (List.dropWhile isSpaceGo t).length ≤ t.length :=
    (List.dropWhile_suffix isSpaceGo).sublist.length_le
  simp at hlen
  omega

theorem trimList_of_parts {l : List Char}
    (hL : l.dropWhile isSpaceGo = l)
    (hR : l.reverse.dropWhile isSpaceGo = l.reverse) : trimList l = l := by
  unfold trimList
  rw [hL, hR, List.reverse_reverse]

theorem trimSpace_append {x v : String} (hx : trimSpace x = x)
    (hne : x.toList ≠ []) (hv : trimSpace v = v) :
    trimSpace (x ++ v) = x ++ v := by
  have hxd : trimList x.toList = x.toList := by
    have h := congrArg String.toList hx
    simpa [trimSpace] using h
  have hvd : trimList v.toList = v.toList := by
    have h := congrArg String.toList hv
    simpa [trimSpace] using h
  obtain ⟨hxL, hxR⟩ := trimList_eq_self_parts hxd
  obtain ⟨hvL, hvR⟩ := trimList_eq_self_parts hvd
  apply string_eq_of_toList
  have happ : (x ++ v).toList = x.toList ++ v.toList := string_toList_append x v
  simp only [trimSpace, happ]
  apply trimList_of_parts
  · rcases hc : x.toList with _ | ⟨c, t⟩
    · exact absurd hc hne
    · rw [hc] at hxL
      have hcs := head_nonspace_of_dropWhile_self hxL
      exact dropWhile_eq_self_of_head _ hcs
  · rw [List.reverse_append]
    rcases hvrev : v.toList.reverse with _ | ⟨d, u⟩
    · simp only [List.nil_append]
      exact hxR
    · rw [hvrev] at hvR
      have hds := head_nonspace_of_dropWhile_self hvR
      have harg : (d :: u) ++ x.toList.reverse = d :: (u ++ x.toList.reverse) := rfl
      rw [harg]
      exact dropWhile_eq_self_of_head _ hds

theorem configLine_trimmed {lang : String}
    (hl : lang = "java" ∨ lang = "python") (k : CKey) {v : String}
    (hvv : trimSpace v = v) :
    trimSpace (configLineStr lang k v) = configLineStr lang k v := by
  rw [configLineStr_default_eq hl]
  rcases hl with rfl | rfl <;> cases k <;>
    exact trimSpace_append
      (trimSpace_append (by decide) (by decide) (by decide))
      (by decide) hvv

theorem dropWhile_append_last {p : Char → Bool} {c : Char}
    (xs : List Char) (hc : p c = false) :
    List.dropWhile p (xs ++ [c]) = List.dropWhile p xs ++ [c] := by
  induction xs with
  | nil => simp [List.dropWhile, hc]
  | cons x t ih =>
    rw [List.cons_append, List.dropWhile_cons, List.dropWhile_cons]
    cases hx : p x <;> simp [hx, ih]

theorem trimList_hash_cons (l : List Char) :
    trimList ('#' :: l) = '#' :: (l.reverse.dropWhile isSpaceGo).reverse := by
  unfold trimList
  rw [dropWhile_eq_self_of_head _ (by decide), List.reverse_cons,
    dropWhile_append_last _ (by decide), List.reverse_append]
  rfl

theorem goHasPrefix_trim_hash (s : String) :
    goHasPrefix (trimSpace ("#" ++ s)) "#" = true := by
  have harg : ("#" ++ s).toList = '#' :: s.toList := by
    simp [string_toList_append]
  simp only [goHasPrefix, trimSpace, harg, trimList_hash_cons]
  simp [List.isPrefixOf]

theorem keep_idem {lang : String} (hl : lang = "java" ∨ lang = "python")
    (k : CKey) (l : String) :
    keepOrComment lang k (keepOrComment lang k l) = keepOrComment lang k l := by
  cases hc : lineCond lang k l with
  | false =>
    have h1 : keepOrComment lang k l = l := by
      rw [keepOrComment_eq]
      simp [hc]
    rw [h1, keepOrComment_eq]
    simp [hc]
  | true =>
    have h1 : keepOrComment lang k l = "#" ++ trimSpace l := by
      rw [keepOrComment_eq]
      simp only [hc, if_true]
      exact commentWrap_default hl (trimSpace l)
    rw [h1, keepOrComment_eq]
    have h2 : lineCond lang k ("#" ++ trimSpace l) = false := by
      rw [lineCond, leftMeta_default hl, goHasPrefix_trim_hash]
      rfl
    simp [h2]

end Oauthdoctor

namespace Oauthdoctor

theorem map_keep_of_nocond {lang : String} {k : CKey} {L : List String}
    (h : ∀ l ∈ L, lineCond lang k l = false) :
    L.map (keepOrComment lang k) = L := by
  induction L with
  | nil => rfl
  | cons x xs ih =>
    rw [List.map_cons, keepOrComment_eq,
      if_neg (by simp [h x (List.mem_cons_self x xs)]),
      ih (fun l hm => h l (List.mem_cons_of_mem x hm))]

/-- C4 counterexample: for the default (python) dialect on the non-empty
original text consisting of the single line `a`, the newly formatted
key/value line is not the first line of the output: the output is the
original line followed by the new line. -/
theorem c4_counterexample :
    (replaceConfigFromReader "python" CKey.refreshToken "newValue"
        ["a"]).head? ≠
      some (configLineStr "python" CKey.refreshToken "newValue") ∧
    replaceConfigFromReader "python" CKey.refreshToken "newValue" ["a"] =
      ["a", "refresh_token:newValue"] := by
  refine ⟨?_, by decide⟩
  decide

/-- C4 (amended): for the default dialects (java and python), rewrite
places the newly formatted key/value line immediately after the first
line of the original text — it is the second line of the output — for
every non-empty original text. -/
theorem replaceConfig_default_new_line_is_second {lang : String}
    (hl : lang = "java" ∨ lang = "python") (k : CKey) (v a : String)
    (ls : List String) :
    (replaceConfigFromReader lang k v (a :: ls))[1]? =
      some (configLineStr lang k v) := by
  rw [replaceConfig_default_cons hl]
  simp

/-- Witness for `replaceConfig_default_new_line_is_second` at the python
dialect on a concrete one-line file. -/
theorem replaceConfig_default_new_line_is_second_witness :
    (replaceConfigFromReader "python" CKey.refreshToken "tok"
        ["developer_token: x"])[1]? =
      some (configLineStr "python" CKey.refreshToken "tok") :=
  replaceConfig_default_new_line_is_second (Or.inr rfl) CKey.refreshToken
    "tok" "developer_token: x" []

/-- C3 counterexample, one fact per correction the amended claim makes.
(1) Not every dialect inserts the new line exactly once: for ruby, a text
consisting of exactly one non-comment assignment line for RefreshToken
and no anchor line is rewritten with zero copies of the newly formatted
line. (2) The commented copy is of the whitespace-trimmed line, not a
verbatim copy: for python on the single indented K-line
`  refresh_token: OLD`, the verbatim comment wrap `#  refresh_token: OLD`
occurs zero times while the trimmed wrap `#refresh_token: OLD` occurs
once. (3) Without the no-pre-existing-copy condition the commented copy
is not unique: a text already containing `#refresh_token: OLD` next to
the live K-line ends with two copies. (4) Without the unique-K-line
condition it is not unique either: two identical live K-lines end as two
commented copies. -/
theorem c3_counterexample :
    (lineCond "ruby" CKey.refreshToken "c.refresh_token = 'OLD'" = true ∧
     replaceConfigFromReader "ruby" CKey.refreshToken "NEW"
        ["c.refresh_token = 'OLD'"] = ["#c.refresh_token = 'OLD'"] ∧
     List.count (configLineStr "ruby" CKey.refreshToken "NEW")
       (replaceConfigFromReader "ruby" CKey.refreshToken "NEW"
         ["c.refresh_token = 'OLD'"]) = 0) ∧
    (lineCond "python" CKey.refreshToken "  refresh_token: OLD" = true ∧
     List.count (commentWrap "python" "  refresh_token: OLD")
       (replaceConfigFromReader "python" CKey.refreshToken "NEW"
         ["  refresh_token: OLD"]) = 0 ∧
     List.count (commentWrap "python" (trimSpace "  refresh_token: OLD"))
       (replaceConfigFromReader "python" CKey.refreshToken "NEW"
         ["  refresh_token: OLD"]) = 1) ∧
    List.count (commentWrap "python" (trimSpace "refresh_token: OLD"))
      (replaceConfigFromReader "python" CKey.refreshToken "NEW"
        ["refresh_token: OLD", "#refresh_token: OLD"]) = 2 ∧
    List.count (commentWrap "python" (trimSpace "refresh_token: OLD"))
      (replaceConfigFromReader "python" CKey.refreshToken "NEW"
        ["refresh_token: OLD", "refresh_token: OLD"]) = 2 := by
  refine ⟨⟨by decide, by decide, by decide⟩,
    ⟨by decide, by decide, by decide⟩, by decide, by decide⟩

end Oauthdoctor
namespace Oauthdoctor

/-- C3 (amended): for the default dialects (java, python), when the
original text has exactly one non-comment line carrying K's dialect
token, no other line equal to the comment-wrapped form of that line's
whitespace-trimmed text, and the new value carries no surrounding
whitespace, rewrite yields exactly one comment-wrapped copy of the
whitespace-trimmed (not verbatim) original K-line and exactly one new
formatted key/value line. For the anchored dialects (dotnet, php, ruby)
the new line is tied to anchor lines instead and can be absent
altogether, as the counterexample's anchor-free ruby text shows. -/
theorem replaceConfig_default_one_comment_one_insert
    {lang : String} {k : CKey} {v kline : String} {pre post : List String}
    (hl : lang = "java" ∨ lang = "python")
    (hkc : lineCond lang k kline = true)
    (huniq : ∀ l ∈ pre ++ post, lineCond lang k l = false)
    (hnocopy : ∀ l ∈ pre ++ post, l ≠ commentWrap lang (trimSpace kline))
    (hvv : trimSpace v = v) :
    List.count (commentWrap lang (trimSpace kline))
        (replaceConfigFromReader lang k v (pre ++ kline :: post)) = 1 ∧
    List.count (configLineStr lang k v)
        (replaceConfigFromReader lang k v (pre ++ kline :: post)) = 1 := by
  have hnc := configLine_not_comment hl k v
  have hck := configLine_contains_key hl k v
  have hv := configLine_trimmed hl k hvv
  have hkeepk : keepOrComment lang k kline =
      commentWrap lang (trimSpace kline) := by
    rw [keepOrComment_eq, if_pos (by simp [hkc])]
  have hcwk : commentWrap lang (trimSpace kline) = "#" ++ trimSpace kline :=
    commentWrap_default hl _
  have hcwk_ne : commentWrap lang (trimSpace kline) ≠ configLineStr lang k v := by
    rw [hcwk]
    exact hash_append_ne hnc
  have hcfg_ni : ∀ l ∈ pre ++ post, l ≠ configLineStr lang k v := by
    intro l hm he
    have hcl := huniq l hm
    rw [he, lineCond_configLine hl hnc hck hv] at hcl
    simp at hcl
  cases pre with
  | nil =>
    simp only [List.nil_append] at huniq hnocopy hcfg_ni ⊢
    rw [replaceConfig_default_cons hl, hkeepk, map_keep_of_nocond huniq]
    have h1 : List.count (commentWrap lang (trimSpace kline)) post = 0 :=
      List.count_eq_zero.mpr (fun hm => hnocopy _ hm rfl)
    have h2 : List.count (configLineStr lang k v) post = 0 :=
      List.count_eq_zero.mpr (fun hm => hcfg_ni _ hm rfl)
    simp only [List.count_cons, h1, h2]
    simp [hcwk_ne, Ne.symm hcwk_ne]
  | cons p ps =>
    have hmem_p : p ∈ (p :: ps) ++ post := by simp
    have hps : ∀ l ∈ ps, lineCond lang k l = false := by
      intro l hm
      exact huniq l (by simp [hm])
    have hpost : ∀ l ∈ post, lineCond lang k l = false := by
      intro l hm
      exact huniq l (by simp [hm])
    rw [List.cons_append, replaceConfig_default_cons hl, List.map_append,
      List.map_cons, hkeepk, map_keep_of_nocond hps, map_keep_of_nocond hpost]
    have hkp : keepOrComment lang k p = p := by
      rw [keepOrComment_eq, if_neg (by simp [huniq p hmem_p])]
    rw [hkp]
    have c1 : List.count (commentWrap lang (trimSpace kline)) ps = 0 :=
      List.count_eq_zero.mpr (fun hm => hnocopy _ (by simp [hm]) rfl)
    have c2 : List.count (configLineStr lang k v) ps = 0 :=
      List.count_eq_zero.mpr (fun hm => hcfg_ni _ (by simp [hm]) rfl)
    have c3 : List.count (commentWrap lang (trimSpace kline)) post = 0 :=
      List.count_eq_zero.mpr (fun hm => hnocopy _ (by simp [hm]) rfl)
    have c4 : List.count (configLineStr lang k v) post = 0 :=
      List.count_eq_zero.mpr (fun hm => hcfg_ni _ (by simp [hm]) rfl)
    have hpne1 : p ≠ commentWrap lang (trimSpace kline) := hnocopy p hmem_p
    have hpne2 : p ≠ configLineStr lang k v := hcfg_ni p hmem_p
    simp only [List.count_cons, List.count_append, c1, c2, c3, c4]
    simp [hcwk_ne, Ne.symm hcwk_ne, hpne1, hpne2]

/-- Witness for `replaceConfig_default_one_comment_one_insert`: the
python dialect, replacing RefreshToken in a three-line file whose middle
line assigns it. -/
theorem replaceConfig_default_one_comment_one_insert_witness :
    List.count (commentWrap "python" (trimSpace "refresh_token: OLD"))
        (replaceConfigFromReader "python" CKey.refreshToken "NEW"
          (["developer_token: D"] ++ "refresh_token: OLD" :: ["client_id: I"])) = 1 ∧
    List.count (configLineStr "python" CKey.refreshToken "NEW")
        (replaceConfigFromReader "python" CKey.refreshToken "NEW"
          (["developer_token: D"] ++ "refresh_token: OLD" :: ["client_id: I"])) = 1 :=
  replaceConfig_default_one_comment_one_insert (Or.inr rfl) (by decide)
    (by decide) (by decide) (by decide)

end Oauthdoctor
namespace Oauthdoctor

/-- C9 counterexample: for the ruby dialect on an original text with two
anchor lines, the second application of rewrite (same key and value)
inserts two fresh value lines, not a single one. -/
theorem c9_counterexample :
    List.count (configLineStr "ruby" CKey.refreshToken "NEW")
        (replaceConfigFromReader "ruby" CKey.refreshToken "NEW"
          (replaceConfigFromReader "ruby" CKey.refreshToken "NEW"
            ["Google::Ads::GoogleAds::Config.new do |c|",
             "Google::Ads::GoogleAds::Config.new do |c|"])) = 2 ∧
    ¬ List.count (configLineStr "ruby" CKey.refreshToken "NEW")
        (replaceConfigFromReader "ruby" CKey.refreshToken "NEW"
          (replaceConfigFromReader "ruby" CKey.refreshToken "NEW"
            ["Google::Ads::GoogleAds::Config.new do |c|",
             "Google::Ads::GoogleAds::Config.new do |c|"])) = 1 := by
  refine ⟨by decide, by decide⟩

/-- C9 (amended): for the default dialects (java, python) and a new
value carrying no surrounding whitespace, for every non-empty original
text, applying rewrite a second time with the same key and value turns
the first output `a₁ :: cfg :: rest` into exactly
`a₁ :: cfg :: commentWrap cfg :: rest`: the line `cfg` inserted by the
first application is comment-wrapped in place with a single fresh value
line in front of it and nothing else changes, so the plain copy count of
the inserted line stays one and its comment-wrapped copy count grows by
exactly one — the first inserted line is never silently overwritten or
dropped. For the anchored dialects the second application inserts one
fresh line per remaining anchor occurrence, which need not be a single
line: the counterexample's two-anchor ruby text receives two. -/
theorem replaceConfig_twice_comments_first_insert
    {lang : String} {k : CKey} {v a : String} {ls : List String}
    (hl : lang = "java" ∨ lang = "python")
    (hvv : trimSpace v = v) :
    replaceConfigFromReader lang k v
        (replaceConfigFromReader lang k v (a :: ls)) =
      keepOrComment lang k a :: configLineStr lang k v ::
        commentWrap lang (configLineStr lang k v) ::
          ls.map (keepOrComment lang k) ∧
    List.count (configLineStr lang k v)
        (replaceConfigFromReader lang k v (a :: ls)) = 1 ∧
    List.count (configLineStr lang k v)
        (replaceConfigFromReader lang k v
          (replaceConfigFromReader lang k v (a :: ls))) = 1 ∧
    List.count (commentWrap lang (configLineStr lang k v))
        (replaceConfigFromReader lang k v
          (replaceConfigFromReader lang k v (a :: ls))) =
      List.count (commentWrap lang (configLineStr lang k v))
        (replaceConfigFromReader lang k v (a :: ls)) + 1 := by
  have hnc := configLine_not_comment hl k v
  have hck := configLine_contains_key hl k v
  have hv := configLine_trimmed hl k hvv
  have e1 := replaceConfig_default_cons hl k v a ls
  have hkcfg : keepOrComment lang k (configLineStr lang k v) =
      commentWrap lang (configLineStr lang k v) := by
    rw [keepOrComment_eq, if_pos (by simp [lineCond_configLine hl hnc hck hv]), hv]
  have hmap2 : (ls.map (keepOrComment lang k)).map (keepOrComment lang k) =
      ls.map (keepOrComment lang k) := by
    rw [List.map_map]
    have hfun : keepOrComment lang k ∘ keepOrComment lang k =
        keepOrComment lang k := funext (keep_idem hl k)
    rw [hfun]
  have e2 := replaceConfig_default_cons hl k v (keepOrComment lang k a)
    (configLineStr lang k v :: ls.map (keepOrComment lang k))
  have hout2 : replaceConfigFromReader lang k v
      (replaceConfigFromReader lang k v (a :: ls)) =
      keepOrComment lang k a :: configLineStr lang k v ::
        commentWrap lang (configLineStr lang k v) ::
          ls.map (keepOrComment lang k) := by
    rw [e1, e2, keep_idem hl k a, List.map_cons, hkcfg, hmap2]
  have hane : keepOrComment lang k a ≠ configLineStr lang k v :=
    keep_ne_configLine hl hnc hck hv a
  have hcw : commentWrap lang (configLineStr lang k v) =
      "#" ++ configLineStr lang k v := commentWrap_default hl _
  have hcwne : commentWrap lang (configLineStr lang k v) ≠
      configLineStr lang k v := by
    rw [hcw]
    exact hash_append_ne hnc
  have hmap0 : List.count (configLineStr lang k v)
      (ls.map (keepOrComment lang k)) = 0 :=
    count_configLine_map hl hnc hck hv ls
  refine ⟨hout2, ?_, ?_, ?_⟩
  · rw [e1, List.count_cons, List.count_cons, hmap0]
    simp [hane]
  · rw [hout2, List.count_cons, List.count_cons, List.count_cons, hmap0]
    simp [hane, hcwne]
  · rw [hout2, e1]
    simp only [List.count_cons, beq_self_eq_true, if_true]
    omega

/-- Witness for `replaceConfig_twice_comments_first_insert`: the python
dialect on a concrete two-line file. -/
theorem replaceConfig_twice_comments_first_insert_witness :
    (replaceConfigFromReader "python" CKey.refreshToken "NEW"
        (replaceConfigFromReader "python" CKey.refreshToken "NEW"
          ("refresh_token: OLD" :: ["client_id: I"])) =
      keepOrComment "python" CKey.refreshToken "refresh_token: OLD" ::
        configLineStr "python" CKey.refreshToken "NEW" ::
          commentWrap "python" (configLineStr "python" CKey.refreshToken "NEW") ::
            ["client_id: I"].map (keepOrComment "python" CKey.refreshToken)) ∧
    List.count (configLineStr "python" CKey.refreshToken "NEW")
        (replaceConfigFromReader "python" CKey.refreshToken "NEW"
          ("refresh_token: OLD" :: ["client_id: I"])) = 1 ∧
    List.count (configLineStr "python" CKey.refreshToken "NEW")
        (replaceConfigFromReader "python" CKey.refreshToken "NEW"
          (replaceConfigFromReader "python" CKey.refreshToken "NEW"
            ("refresh_token: OLD" :: ["client_id: I"]))) = 1 ∧
    List.count (commentWrap "python" (configLineStr "python" CKey.refreshToken "NEW"))
        (replaceConfigFromReader "python" CKey.refreshToken "NEW"
          (replaceConfigFromReader "python" CKey.refreshToken "NEW"
            ("refresh_token: OLD" :: ["client_id: I"]))) =
      List.count (commentWrap "python" (configLineStr "python" CKey.refreshToken "NEW"))
        (replaceConfigFromReader "python" CKey.refreshToken "NEW"
          ("refresh_token: OLD" :: ["client_id: I"])) + 1 :=
  replaceConfig_twice_comments_first_insert (Or.inr rfl) (by decide)

end Oauthdoctor
namespace Oauthdoctor

/-- C5: `reconnect` is a decision table over the classified error kind:
APIDisabled, InvalidClientInfo and MissingDevToken retry the connect step
unchanged and return an empty new refresh token; InvalidCustomerID first
reads a new customer ID from the operator and then retries with existing
credentials; every other kind (including the default/Unknown case)
regenerates the refresh token through the full consent step, and only a
regenerating branch can return a non-empty new refresh token. -/
theorem reconnect_decision_table (rtRetry : Except String String)
    (noRTRetry : NoRTResult) (err : String) :
    ((decodeError err = ErrorKind.googleAdsAPIDisabled ∨
      decodeError err = ErrorKind.invalidClientInfo ∨
      decodeError err = ErrorKind.missingDevToken) →
      reconnect rtRetry noRTRetry err =
        (some (rtRetry, ""), [Event.connectRT])) ∧
    (decodeError err = ErrorKind.invalidCustomerID →
      reconnect rtRetry noRTRetry err =
        (some (rtRetry, ""), [Event.readCID, Event.connectRT])) ∧
    (decodeError err ≠ ErrorKind.googleAdsAPIDisabled →
      decodeError err ≠ ErrorKind.invalidClientInfo →
      decodeError err ≠ ErrorKind.missingDevToken →
      decodeError err ≠ ErrorKind.invalidCustomerID →
      reconnect rtRetry noRTRetry err =
        (connectWithNoRefreshToken noRTRetry, [Event.connectNoRT])) ∧
    (∀ res tok, (reconnect rtRetry noRTRetry err).1 = some (res, tok) →
      tok ≠ "" →
      reconnect rtRetry noRTRetry err =
        (connectWithNoRefreshToken noRTRetry, [Event.connectNoRT])) := by
  cases h : decodeError err <;> simp [reconnect, h]

/-- Witness for `reconnect_decision_table`: an INVALID_CUSTOMER_ID error
reads a new customer ID and retries with existing credentials. -/
theorem reconnect_decision_table_witness :
    reconnect (Except.ok "acct")
        (NoRTResult.done "tok" (Except.ok "acct2"))
        "err: INVALID_CUSTOMER_ID" =
      (some (Except.ok "acct", ""), [Event.readCID, Event.connectRT]) :=
  (reconnect_decision_table (Except.ok "acct")
    (NoRTResult.done "tok" (Except.ok "acct2"))
    "err: INVALID_CUSTOMER_ID").2.1 (by decide)

/-- C7: the service-account flow performs exactly one connection attempt
and no recovery of any sort — no retry, no consent re-run, no web
listener, no reconnect step — on every run, completed or aborted; a
completed run reports pass on success, and diagnose followed by the fail
report on failure. The claim's unconditional diagnose-and-report on
failure is however not guaranteed by the code: on the failure text `{}`
the diagnose call panics before any report, as the first conjunct
evaluates — no classification and no fail line ever happen. -/
theorem service_flow_single_attempt_no_recovery :
    simulateServiceAccFlow panicWorld =
      ([Event.getAccount],
        some (RunAbort.panicked GoPanic.typeAssertionFailed)) ∧
    (∀ w : World,
      List.count Event.getAccount (simulateServiceAccFlow w).1 = 1 ∧
      (∀ ev ∈ (simulateServiceAccFlow w).1, isConnectAttempt ev = false) ∧
      Event.connectWeb ∉ (simulateServiceAccFlow w).1 ∧
      Event.listenerStart ∉ (simulateServiceAccFlow w).1 ∧
      Event.reconnectEv ∉ (simulateServiceAccFlow w).1 ∧
      Event.readCID ∉ (simulateServiceAccFlow w).1) ∧
    (∀ w : World, ∀ i, w.svc = Except.ok i →
      Event.reportPass ∈ (simulateServiceAccFlow w).1 ∧
      Event.reportFail ∉ (simulateServiceAccFlow w).1 ∧
      (∀ k, Event.diagnoseEv k ∉ (simulateServiceAccFlow w).1)) ∧
    (∀ w : World, ∀ e, w.svc = Except.error e →
      (simulateServiceAccFlow w).2 = none →
      Event.diagnoseEv (decodeError e) ∈ (simulateServiceAccFlow w).1 ∧
      Event.reportFail ∈ (simulateServiceAccFlow w).1 ∧
      Event.reportPass ∉ (simulateServiceAccFlow w).1) := by
  refine ⟨rfl, ?_, ?_, ?_⟩
  · intro w
    cases hs : w.svc with
    | ok info =>
      cases hv : w.verbose <;>
        simp [simulateServiceAccFlow, hs, hv, isConnectAttempt]
    | error e =>
      cases hd : diagnose e (w.jsonParse e) <;>
        simp [simulateServiceAccFlow, hs, hd, isConnectAttempt]
  · intro w i h
    cases hv : w.verbose <;> simp [simulateServiceAccFlow, h, hv]
  · intro w e h hnone
    cases hd : diagnose e (w.jsonParse e) <;>
      simp [simulateServiceAccFlow, h, hd] at hnone ⊢

/-- Witness for `service_flow_single_attempt_no_recovery` on a concrete
succeeding run. -/
theorem service_flow_single_attempt_no_recovery_witness :
    Event.reportPass ∈ (simulateServiceAccFlow passingWorld).1 ∧
    Event.reportFail ∉ (simulateServiceAccFlow passingWorld).1 :=
  ⟨(service_flow_single_attempt_no_recovery.2.2.1 passingWorld "acct" rfl).1,
   (service_flow_single_attempt_no_recovery.2.2.1 passingWorld "acct" rfl).2.1⟩

end Oauthdoctor

namespace Oauthdoctor

/-- C6 counterexample: in a run with a valid refresh token pre-seeded in
the configuration and a first web attempt that succeeds, the web flow
still starts the local HTTP listener and still blocks on the
authorization-code channel — the pre-seeded token does not bypass the
listener, contrary to the claim. -/
theorem c6_counterexample :
    passingWorld.refreshTokenCfg = "1/seeded-refresh-token" ∧
    (passingWorld.web 0).result = WebResult.ok "acct" ∧
    Event.listenerStart ∈ (simulateWebFlow passingWorld).1 ∧
    Event.chanRecv "authcode" ∈ (simulateWebFlow passingWorld).1 := by
  refine ⟨rfl, rfl, ?_, ?_⟩ <;>
    simp [simulateWebFlow, connectWebFlow, passingWorld]

/-- C6 (amended): the web flow starts the listener and blocks on the
authorization-code channel on every attempt, whether or not a refresh
token is pre-seeded in the configuration; the account payload is echoed
on a first-attempt success exactly when verbose mode is set. -/
theorem webFlow_always_listens (w : World) :
    Event.listenerStart ∈ (simulateWebFlow w).1 ∧
    Event.chanRecv (w.web 0).code ∈ (simulateWebFlow w).1 ∧
    (∀ i, (w.web 0).result = WebResult.ok i →
      (Event.logAccountInfo i ∈ (simulateWebFlow w).1 ↔
        w.verbose = true)) := by
  cases h : (w.web 0).result with
  | fatalExchange => simp [simulateWebFlow, connectWebFlow, h]
  | ok info =>
    cases hv : w.verbose <;> simp [simulateWebFlow, connectWebFlow, h, hv]
  | apiError e =>
    cases hd : diagnose e (w.jsonParse e) with
    | error p => simp [simulateWebFlow, connectWebFlow, h, hd]
    | ok d =>
      cases h2 : (w.web 1).result <;> cases hv : w.verbose <;>
        simp [simulateWebFlow, connectWebFlow, h, hd, h2, hv]

/-- Witness for `webFlow_always_listens` on a concrete succeeding
non-verbose run: the payload is not echoed. -/
theorem webFlow_always_listens_witness :
    ¬ Event.logAccountInfo "acct" ∈ (simulateWebFlow passingWorld).1 := by
  intro hmem
  have hv := ((webFlow_always_listens passingWorld).2.2 "acct" rfl).mp hmem
  simp [passingWorld] at hv

/-- C8: `replaceRefreshToken` writes the freshly minted token through the
config patcher (mutating the in-memory keys and recording an on-disk
write) precisely when the operator's answer is the single character `Y`;
for any other answer — `y`, `YES`, the empty answer — the writer state is
unchanged. -/
theorem replaceRefreshToken_exactly_on_Y (st : WriterState) (tok : String) :
    replaceRefreshToken st "Y" tok = replaceConfig st CKey.refreshToken tok ∧
    (∀ ans, ans ≠ "Y" → replaceRefreshToken st ans tok = st) ∧
    (∀ ans, replaceRefreshToken st ans tok ≠ st ↔
      (ans = "Y" ∧ replaceRefreshToken st ans tok =
        replaceConfig st CKey.refreshToken tok)) ∧
    replaceRefreshToken st "y" tok = st ∧
    replaceRefreshToken st "YES" tok = st ∧
    replaceRefreshToken st "" tok = st := by
  have hwr : replaceConfig st CKey.refreshToken tok ≠ st := by
    intro he
    have hlen := congrArg (fun s => s.writes.length) he
    simp [replaceConfig] at hlen
  refine ⟨by simp [replaceRefreshToken], ?_, ?_, ?_, ?_, ?_⟩
  · intro ans hans
    simp [replaceRefreshToken, hans]
  · intro ans
    by_cases hans : ans = "Y"
    · subst hans
      simp [replaceRefreshToken]
      exact hwr
    · simp [replaceRefreshToken, hans]
  · simp [replaceRefreshToken]
  · simp [replaceRefreshToken]
  · simp [replaceRefreshToken]

/-- Witness for `replaceRefreshToken_exactly_on_Y`: a lowercase `y`
leaves a concrete writer state unchanged. -/
theorem replaceRefreshToken_exactly_on_Y_witness :
    replaceRefreshToken
        { keys := { clientID := "", clientSecret := "", devToken := "",
                    refreshToken := "old", loginCustomerID := "" }
          writes := [] } "y" "new" =
      { keys := { clientID := "", clientSecret := "", devToken := "",
                  refreshToken := "old", loginCustomerID := "" }
        writes := [] } :=
  (replaceRefreshToken_exactly_on_Y _ "new").2.1 "y" (by decide)

/-- C10: `diagnose` is not total — the claim that the `error.message`
extraction never faults is contradicted by the code. For the error text
`{}` (a JSON object with no `error` key) `json.Unmarshal` succeeds with an
empty map, and the unchecked type assertion
`parsedMsg["error"].(map[string]interface{})` panics on the resulting
`nil`; likewise for `{"error": "This is an error"}` (the shape produced
by `getAccount`'s own error path and exercised by `TestGetAccount`),
whose `error` value is a string, not an object. A well-formed payload
with an `error.message` string field is extracted without fault. -/
theorem diagnose_panics_on_missing_error_object :
    diagnose "\x7b\x7d" (some []) = Except.error GoPanic.typeAssertionFailed ∧
    diagnose "\x7b\"error\": \"This is an error\"\x7d"
        (some [("error", JSONValue.str "This is an error")]) =
      Except.error GoPanic.typeAssertionFailed ∧
    diagnose
        "\x7b\"error\": \x7b\"message\": \"m\", \"status\": \"PERMISSION_DENIED\"\x7d\x7d"
        (some [("error",
          JSONValue.obj [("message", JSONValue.str "m"),
                         ("status", JSONValue.str "PERMISSION_DENIED")])]) =
      Except.ok (some "m",
        decodeError
          "\x7b\"error\": \x7b\"message\": \"m\", \"status\": \"PERMISSION_DENIED\"\x7d\x7d") := by
  refine ⟨rfl, rfl, rfl⟩

end Oauthdoctor
namespace Oauthdoctor

theorem reconnect_events (rtRetry : Except String String)
    (noRTRetry : NoRTResult) (err : String) :
    (reconnect rtRetry noRTRetry err).2 = [Event.connectRT] ∨
    (reconnect rtRetry noRTRetry err).2 =
      [Event.readCID, Event.connectRT] ∨
    (reconnect rtRetry noRTRetry err).2 = [Event.connectNoRT] := by
  cases h : decodeError err <;> simp [reconnect, h]

theorem reconnect_event_counts (rtRetry : Except String String)
    (noRTRetry : NoRTResult) (err : String) :
    (reconnect rtRetry noRTRetry err).2.countP isConnectAttempt = 1 ∧
    (reconnect rtRetry noRTRetry err).2.countP isDiagnoseEv = 0 ∧
    List.count Event.reconnectEv (reconnect rtRetry noRTRetry err).2 = 0 ∧
    List.count Event.reportPass (reconnect rtRetry noRTRetry err).2 = 0 ∧
    List.count Event.reportFail (reconnect rtRetry noRTRetry err).2 = 0 := by
  rcases reconnect_events rtRetry noRTRetry err with h | h | h <;>
    rw [h] <;> simp [isConnectAttempt, isDiagnoseEv]

theorem replaceRTEvents_counts (ans tok : String) :
    (replaceRefreshTokenEvents ans tok).countP isConnectAttempt = 0 ∧
    (replaceRefreshTokenEvents ans tok).countP isDiagnoseEv = 0 ∧
    List.count Event.reconnectEv (replaceRefreshTokenEvents ans tok) = 0 ∧
    List.count Event.reportPass (replaceRefreshTokenEvents ans tok) = 0 ∧
    List.count Event.reportFail (replaceRefreshTokenEvents ans tok) = 0 := by
  cases h : ans == "Y" <;>
    simp [replaceRefreshTokenEvents, h, isConnectAttempt, isDiagnoseEv]

/-- C2: on every run of the installed-app or web flow — completed or
aborted — recovery happens at most once and there are at most two
connection attempts. On every completed run whose first attempt failed,
diagnose and recovery each happen exactly once, exactly one further
attempt is made, and exactly one terminal pass/fail line is reported,
whatever the kind of the second failure. The claim's unconditional
guarantee is however not met by the code: when the first attempt fails
with the error text `{}`, the diagnose call panics — the first two
conjuncts evaluate those runs: the flow ends with no recovery, no second
attempt and no terminal report at all. -/
theorem flows_panic_or_recover_once :
    simulateAppFlow panicWorld =
      ([Event.connectRT],
        some (RunAbort.panicked GoPanic.typeAssertionFailed)) ∧
    simulateWebFlow panicWorld =
      ([Event.connectWeb, Event.listenerStart, Event.chanRecv "authcode"],
        some (RunAbort.panicked GoPanic.typeAssertionFailed)) ∧
    (∀ w : World,
      List.count Event.reconnectEv (simulateAppFlow w).1 ≤ 1 ∧
      (simulateAppFlow w).1.countP isConnectAttempt ≤ 2 ∧
      List.count Event.connectWeb (simulateWebFlow w).1 ≤ 2) ∧
    (∀ w : World, ∀ e, w.rt 0 = Except.error e →
      (simulateAppFlow w).2 = none →
      (simulateAppFlow w).1.countP isDiagnoseEv = 1 ∧
      List.count Event.reconnectEv (simulateAppFlow w).1 = 1 ∧
      (simulateAppFlow w).1.countP isConnectAttempt = 2 ∧
      List.count Event.reportPass (simulateAppFlow w).1 +
        List.count Event.reportFail (simulateAppFlow w).1 = 1) ∧
    (∀ w : World, ∀ e, (w.web 0).result = WebResult.apiError e →
      (simulateWebFlow w).2 = none →
      (simulateWebFlow w).1.countP isDiagnoseEv = 1 ∧
      List.count Event.connectWeb (simulateWebFlow w).1 = 2 ∧
      List.count Event.reportPass (simulateWebFlow w).1 +
        List.count Event.reportFail (simulateWebFlow w).1 = 1) := by
  refine ⟨rfl, rfl, ?_, ?_, ?_⟩
  · intro w
    have happ : List.count Event.reconnectEv (simulateAppFlow w).1 ≤ 1 ∧
        (simulateAppFlow w).1.countP isConnectAttempt ≤ 2 := by
      rcases h0 : w.rt 0 with e | i
      · rcases hd : diagnose e (w.jsonParse e) with p | d
        · simp [simulateAppFlow, h0, hd, isConnectAttempt]
        · obtain ⟨hc1, hc2, hc3, hc4, hc5⟩ :=
            reconnect_event_counts (w.rt 1) (w.noRT 0) e
          rcases hro : (reconnect (w.rt 1) (w.noRT 0) e).1 with _ | ⟨res, tok⟩
          · simp [simulateAppFlow, h0, hd, hro, List.count_append,
              List.countP_append, hc1, hc2, hc3, isConnectAttempt,
              isDiagnoseEv]
          · obtain ⟨hp1, hp2, hp3, hp4, hp5⟩ :=
              replaceRTEvents_counts w.replaceAnswer tok
            rcases res with er | info <;>
              cases hv : w.verbose <;>
              cases htok : (tok != "") <;>
              simp [simulateAppFlow, h0, hd, hro, hv, htok,
                List.count_append, List.countP_append, hc1, hc2, hc3,
                hp1, hp3, isConnectAttempt, isDiagnoseEv]
      · cases hv : w.verbose <;>
          simp [simulateAppFlow, h0, hv, isConnectAttempt]
    refine ⟨happ.1, happ.2, ?_⟩
    rcases h : (w.web 0).result with _ | e | i
    · simp [simulateWebFlow, connectWebFlow, h]
    · rcases hd : diagnose e (w.jsonParse e) with p | d
      · simp [simulateWebFlow, connectWebFlow, h, hd]
      · rcases h2 : (w.web 1).result with _ | e2 | i2 <;>
          cases hv : w.verbose <;>
          simp [simulateWebFlow, connectWebFlow, h, hd, h2, hv,
            List.count_append]
    · cases hv : w.verbose <;>
        simp [simulateWebFlow, connectWebFlow, h, hv]
  · intro w e h0 hnone
    rcases hd : diagnose e (w.jsonParse e) with p | d
    · simp [simulateAppFlow, h0, hd] at hnone
    · obtain ⟨hc1, hc2, hc3, hc4, hc5⟩ :=
        reconnect_event_counts (w.rt 1) (w.noRT 0) e
      rcases hro : (reconnect (w.rt 1) (w.noRT 0) e).1 with _ | ⟨res, tok⟩
      · simp [simulateAppFlow, h0, hd, hro] at hnone
      · obtain ⟨hp1, hp2, hp3, hp4, hp5⟩ :=
          replaceRTEvents_counts w.replaceAnswer tok
        rcases res with er | info <;>
          cases hv : w.verbose <;>
          cases htok : (tok != "") <;>
          simp [simulateAppFlow, h0, hd, hro, hv, htok,
            List.count_append, List.countP_append, hc1, hc2, hc3, hc4, hc5,
            hp1, hp2, hp3, hp4, hp5, isConnectAttempt, isDiagnoseEv]
  · intro w e h0 hnone
    rcases hd : diagnose e (w.jsonParse e) with p | d
    · simp [simulateWebFlow, connectWebFlow, h0, hd] at hnone
    · rcases h2 : (w.web 1).result with _ | e2 | i2
      · simp [simulateWebFlow, connectWebFlow, h0, hd, h2] at hnone
      · cases hv : w.verbose <;>
          simp [simulateWebFlow, connectWebFlow, h0, hd, h2, hv,
            List.count_append, List.countP_append, isDiagnoseEv]
      · cases hv : w.verbose <;>
          simp [simulateWebFlow, connectWebFlow, h0, hd, h2, hv,
            List.count_append, List.countP_append, isDiagnoseEv]

/-- Witness for `flows_panic_or_recover_once`: in the all-failing run
with non-JSON error texts, the installed-app flow completes — it
diagnoses once, recovers once, makes exactly two connection attempts and
reports a single terminal failure. -/
theorem flows_panic_or_recover_once_witness :
    (simulateAppFlow failingWorld).1.countP isDiagnoseEv = 1 ∧
    List.count Event.reconnectEv (simulateAppFlow failingWorld).1 = 1 ∧
    (simulateAppFlow failingWorld).1.countP isConnectAttempt = 2 ∧
    List.count Event.reportPass (simulateAppFlow failingWorld).1 +
      List.count Event.reportFail (simulateAppFlow failingWorld).1 = 1 :=
  flows_panic_or_recover_once.2.2.2.1 failingWorld "invalid_grant" rfl rfl

end Oauthdoctor
